import Mathlib

/-!
Verification of the ThoraxSense inference service (`src/app.py`).

The request pipeline of `app.py` is embedded shallowly:

* an uploaded file is its raw byte buffer (`Bytes`) plus a declared
  content-type string;
* the PIL decode step (`Image.open(...).convert('RGB')` followed by
  `resize((224, 224))`) is modelled abstractly as a `DecodeFn`: it either
  fails with a message (invalid image bytes) or yields a 224×224 RGB image
  whose 8-bit channel values lie in `Fin 256` — exactly what PIL mode
  `RGB` guarantees.  The resampling arithmetic is internal to PIL and not
  part of the repository, so it stays abstract;
* the TensorFlow forward pass (`model.predict`) is modelled abstractly as
  an `InferFn` from normalized tensors to raw probability vectors (or a
  runtime error).  Probabilities are embedded as rationals `ℚ`: the code
  only compares, reorders and sums them, so the float values act as an
  ordered field here;
* everything else — normalization by `/ 255.0`, the formatting and
  sorting of results, the demo-mode branch, the HTTP validation and
  error mapping in `predict_xray`, and `get_recent_scans` — is translated
  directly from the source.

Calls to the file reader, the decoder and the model are recorded in an
event trace so that claims about what is (not) invoked can be stated.
-/

namespace ThoraxSense

/-- Raw uploaded bytes: the value of `await file.read()`. -/
abbrev Bytes := List Nat

/-- A decoded RGB raster image of height `h` and width `w`: PIL
`convert('RGB')` yields three 8-bit channels per pixel, so each channel
value is in `0..255`. -/
def RGBImage (h w : Nat) : Type := Fin h → Fin w → Fin 3 → Fin 256

/-- The normalized model input: a 224×224×3 array of scalars (the batch
dimension of size 1 added by `tf.expand_dims` is elided, being a constant
wrapper). -/
abbrev Tensor := Fin 224 → Fin 224 → Fin 3 → ℚ

/-- Abstract account of `Image.open(io.BytesIO(b)).convert('RGB')` followed
by `.resize((224, 224))`: invalid bytes raise (an `Except.error`), valid
bytes of any original dimensions yield a 224×224 8-bit RGB image. -/
def DecodeFn : Type := Bytes → Except String (RGBImage 224 224)

/-- Abstract account of `model.predict` on the loaded model: a normalized
tensor goes to a raw class-probability vector, or to a runtime error
(shape mismatch and the like). -/
def InferFn : Type := Tensor → Except String (List ℚ)

/-- Translation of `img_array = img_array / 255.0` applied to the decoded
8-bit image (`img_to_array` makes the uint8 channel values into scalars,
then each is divided by 255). -/
def normalizeTensor (img : RGBImage 224 224) : Tensor :=
  fun i j c => ((img i j c : Nat) : ℚ) / 255

/-- Translation of Python `s.startswith(pre)` on the character lists of the
two strings. -/
def startsWithChars : List Char → List Char → Bool
  | _, [] => true
  | [], _ :: _ => false
  | c :: cs, p :: ps => c == p && startsWithChars cs ps

/-- Python `s.startswith(pre)` for `String`s. -/
def strStartsWith (s pre : String) : Bool :=
  startsWithChars s.data pre.data

/-- The fixed class-label ordering `class_names` of `predict_image`. -/
def class_names : List String :=
  ["NORMAL", "PNEUMONIA", "COVID-19", "TUBERCULOSIS"]

/-- The hardcoded demo-mode prediction list returned when `model is None`
(each entry is the pair of the `"class"` and `"confidence"` values). -/
def demo_predictions : List (String × ℚ) :=
  [("NORMAL", 85/100), ("PNEUMONIA", 10/100),
   ("COVID-19", 5/100), ("TUBERCULOSIS", 0)]

/-- Insertion step of a stable descending sort on confidence: `x` is
placed before the first element whose confidence is ≤ its own, so
elements with strictly greater confidence stay in front and, on ties,
earlier elements stay earlier. -/
def insertDesc (x : String × ℚ) : List (String × ℚ) → List (String × ℚ)
  | [] => [x]
  | y :: ys => if y.2 ≤ x.2 then x :: y :: ys else y :: insertDesc x ys

/-- Translation of `results.sort(key=lambda x: x["confidence"],
reverse=True)`: Python list sort is stable, and `reverse=True` sorts in
descending key order while keeping equal-key elements in their original
relative order; a stable descending insertion sort realizes exactly
that. -/
def sortDesc : List (String × ℚ) → List (String × ℚ)
  | [] => []
  | x :: xs => insertDesc x (sortDesc xs)

/-- The `"success": true` response dictionary built at the end of
`predict_image`: the sorted prediction list plus `primary_diagnosis` and
`confidence` taken from its first entry. -/
structure SuccessBody where
  predictions : List (String × ℚ)
  primary_diagnosis : String
  confidence : ℚ
deriving DecidableEq

/-- The three shapes of dictionary `predict_image` can return:
`demo` is the `model is None` payload (`success: false`,
`demo_mode: true`, an `error` message and the fixed prediction list);
`ok` is the `success: true` result; `err` is the `except` branch
(`success: false` with an `error` message). -/
inductive PredictResult where
  | demo (error : String) (predictions : List (String × ℚ))
  | ok (body : SuccessBody)
  | err (error : String)
deriving DecidableEq

/-- Python `result.get("success", False)`: only the `ok` dictionary
carries `"success": True`. -/
def PredictResult.success : PredictResult → Bool
  | .ok _ => true
  | _ => false

/-- Python `result.get("error")`: the `error` value of the dictionary,
when present. -/
def PredictResult.errorVal : PredictResult → Option String
  | .demo e _ => some e
  | .err e => some e
  | .ok _ => none

/-- Formatting section of `predict_image`: zip the raw probabilities
positionally with `class_names` (an out-of-range class index raises
`IndexError`, caught by the enclosing `except` — this needs
`len(probs) ≤ len(class_names)`), sort descending by confidence, and read
`primary_diagnosis` / `confidence` off entry 0 (an empty list again
raises `IndexError`). -/
def buildSuccess (probs : List ℚ) : Except String SuccessBody :=
  if probs.length ≤ class_names.length then
    let results := sortDesc (class_names.zip probs)
    match results.head? with
    | none => Except.error "list index out of range"
    | some top => Except.ok ⟨results, top.1, top.2⟩
  else Except.error "list index out of range"

/-- Observable calls made while handling a request: reading the uploaded
file, decoding the image bytes, running `model.predict`. -/
inductive Event where
  | readFile
  | decode
  | infer
deriving DecidableEq

/-- Translation of `predict_image(image_bytes)`, also returning the trace
of decode/infer calls it performs.  `model is None` short-circuits to the
demo payload; otherwise decode, normalize, infer and format, with every
exception of the `try` block turned into a `success: false` / `error`
dictionary. -/
def predict_image (dec : DecodeFn) (model : Option InferFn) (image_bytes : Bytes) :
    PredictResult × List Event :=
  match model with
  | none => (PredictResult.demo "Model not loaded" demo_predictions, [])
  | some infer =>
    match dec image_bytes with
    | Except.error e => (PredictResult.err e, [Event.decode])
    | Except.ok img =>
      match infer (normalizeTensor img) with
      | Except.error e => (PredictResult.err e, [Event.decode, Event.infer])
      | Except.ok probs =>
        match buildSuccess probs with
        | Except.error e => (PredictResult.err e, [Event.decode, Event.infer])
        | Except.ok body => (PredictResult.ok body, [Event.decode, Event.infer])

/-- HTTP outcome of the `/api/predict` handler: a 200 `JSONResponse`
carrying the prediction dictionary, or an `HTTPException` with a status
code and a `detail` string. -/
inductive Response where
  | ok (body : PredictResult)
  | httpError (status : Nat) (detail : String)
deriving DecidableEq

/-- Translation of the `predict_xray` handler, also returning the trace of
file-read/decode/infer calls: reject a non-`image/` content type with 400
before reading the file; read the file; reject more than 10 MiB with 400;
call `predict_image`; map a non-success result to a 500 whose detail is
the result's `error` (default `"Prediction failed"`); otherwise answer 200
with the result. -/
def predict_xray (dec : DecodeFn) (model : Option InferFn)
    (content_type : String) (file_bytes : Bytes) : Response × List Event :=
  if strStartsWith content_type "image/" = false then
    (Response.httpError 400 "File must be an image", [])
  else
    let contents := file_bytes
    if contents.length > 10 * 1024 * 1024 then
      (Response.httpError 400 "File too large (max 10MB)", [Event.readFile])
    else
      let re := predict_image dec model contents
      if re.1.success = false then
        (Response.httpError 500 (re.1.errorVal.getD "Prediction failed"),
         Event.readFile :: re.2)
      else
        (Response.ok re.1, Event.readFile :: re.2)

/-- The module-level `model` global is the only state the request path
reads; the handler body contains no assignment to it, so one request is
the response together with the unchanged state. -/
def handle_request (dec : DecodeFn) (st : Option InferFn)
    (content_type : String) (file_bytes : Bytes) : Response × Option InferFn :=
  ((predict_xray dec st content_type file_bytes).1, st)

/-- The first entry of maximum confidence: the specification's
"maximum-confidence entry (first occurrence on ties)", scanned from the
left (a later entry replaces the current best only when strictly
greater). -/
def firstMaxD : List (String × ℚ) → Option (String × ℚ)
  | [] => none
  | x :: xs =>
    match firstMaxD xs with
    | none => some x
    | some m => if x.2 < m.2 then some m else some x

/-- A decode function for concrete instances: always fails (bytes that are
not a valid image). -/
def failingDecode : DecodeFn := fun _ => Except.error "cannot identify image file"

/-- The all-zero (black) 224×224 RGB image. -/
def zeroImage : RGBImage 224 224 := fun _ _ _ => 0

/-- A decode function for concrete instances: every byte buffer decodes to
the all-zero image. -/
def zeroDecode : DecodeFn := fun _ => Except.ok zeroImage

/-- An inference function for concrete instances: the uniform distribution
over the four classes. -/
def uniformInfer : InferFn := fun _ => Except.ok [1/4, 1/4, 1/4, 1/4]

/-- An inference function for concrete instances: the model invocation
always raises. -/
def failingInfer : InferFn := fun _ => Except.error "Matrix size-incompatible"

/-- The formatter output on the uniform probability vector, used in
concrete instances below. -/
def uniformBody : SuccessBody :=
  ⟨[("NORMAL", 1/4), ("PNEUMONIA", 1/4), ("COVID-19", 1/4), ("TUBERCULOSIS", 1/4)],
   "NORMAL", 1/4⟩

/-- Two-digit zero-padded rendering, Python `f"{n:02d}"` for `0 ≤ n`. -/
def pad2 (n : Nat) : String :=
  if n < 10 then "0" ++ toString n else toString n

/-- One mock entry of the `/api/recent-scans` payload. -/
structure ScanEntry where
  id : Nat
  date : String
  patient_id : String
  diagnosis : String
  confidence : String
  image_url : String
deriving DecidableEq

/-- The diagnosis field `["NORMAL", "PNEUMONIA", "COVID-19"][i % 3]`. -/
def diagAt (i : Nat) : String :=
  (["NORMAL", "PNEUMONIA", "COVID-19"]).get ⟨i % 3, Nat.mod_lt i (by decide)⟩

/-- Translation of `get_recent_scans(limit)`: the mock scan list built by
`for i in range(min(limit, 10))` (an empty range when the minimum is
negative, matching `Int.toNat`), paired with the `count` field
`min(limit, 10)`. -/
def get_recent_scans (limit : Int) : List ScanEntry × Int :=
  (((List.range (min limit 10).toNat).map fun i =>
    { id := i
      date := "2024-01-" ++ pad2 (15 - i)
      patient_id := "PT-00" ++ toString (100 + i)
      diagnosis := diagAt i
      confidence := toString ((85 + i * 2) % 100) ++ "%"
      image_url := "/api/images/" ++ toString i }),
   min limit 10)

/-! Helper lemmas about the stable descending sort and the first-maximum
scan. -/

theorem insertDesc_perm (x : String × ℚ) (l : List (String × ℚ)) :
    (insertDesc x l).Perm (x :: l) := by
  induction l with
  | nil => simp [insertDesc]
  | cons y ys ih =>
    by_cases h : y.2 ≤ x.2
    · simp [insertDesc, h]
    · simp only [insertDesc, if_neg h]
      exact (ih.cons y).trans (List.Perm.swap x y ys)

theorem sortDesc_perm (l : List (String × ℚ)) : (sortDesc l).Perm l := by
  induction l with
  | nil => simp [sortDesc]
  | cons x xs ih => exact (insertDesc_perm x (sortDesc xs)).trans (ih.cons x)

theorem length_sortDesc (l : List (String × ℚ)) :
    (sortDesc l).length = l.length :=
  (sortDesc_perm l).length_eq

theorem pairwise_insertDesc (x : String × ℚ) (l : List (String × ℚ))
    (h : l.Pairwise (fun a b => b.2 ≤ a.2)) :
    (insertDesc x l).Pairwise (fun a b => b.2 ≤ a.2) := by
  induction l with
  | nil => simp [insertDesc]
  | cons y ys ih =>
    obtain ⟨hy, hys⟩ := List.pairwise_cons.mp h
    by_cases hle : y.2 ≤ x.2
    · simp only [insertDesc, if_pos hle]
      refine List.pairwise_cons.mpr ⟨?_, h⟩
      intro z hz
      rcases List.mem_cons.mp hz with rfl | hz
      · exact hle
      · exact le_trans (hy z hz) hle
    · simp only [insertDesc, if_neg hle]
      refine List.pairwise_cons.mpr ⟨?_, ih hys⟩
      intro z hz
      rcases List.mem_cons.mp ((insertDesc_perm x ys).mem_iff.mp hz) with rfl | hz
      · exact le_of_lt (not_le.mp hle)
      · exact hy z hz

theorem pairwise_sortDesc (l : List (String × ℚ)) :
    (sortDesc l).Pairwise (fun a b => b.2 ≤ a.2) := by
  induction l with
  | nil => simp [sortDesc]
  | cons x xs ih => exact pairwise_insertDesc x (sortDesc xs) ih

theorem insertDesc_of_le (x : String × ℚ) (l : List (String × ℚ))
    (h : ∀ y ∈ l, y.2 ≤ x.2) : insertDesc x l = x :: l := by
  cases l with
  | nil => rfl
  | cons y ys => simp [insertDesc, h y (List.mem_cons_self y ys)]

theorem sortDesc_of_pairwise (l : List (String × ℚ))
    (h : l.Pairwise (fun a b => b.2 ≤ a.2)) : sortDesc l = l := by
  induction l with
  | nil => rfl
  | cons x xs ih =>
    obtain ⟨hx, hxs⟩ := List.pairwise_cons.mp h
    simp only [sortDesc, ih hxs]
    exact insertDesc_of_le x xs hx

theorem filter_insertDesc (x : String × ℚ) (l : List (String × ℚ)) (c : ℚ) :
    (insertDesc x l).filter (fun e => decide (e.2 = c)) =
      ((x :: l).filter (fun e => decide (e.2 = c))) := by
  induction l with
  | nil => rfl
  | cons y ys ih =>
    by_cases hle : y.2 ≤ x.2
    · simp [insertDesc, hle]
    · have hxy : x.2 < y.2 := not_le.mp hle
      simp only [insertDesc, if_neg hle]
      by_cases hxc : x.2 = c
      · have hyc : ¬ y.2 = c := fun hy => absurd (hy.trans hxc.symm) (ne_of_gt hxy)
        simp only [List.filter_cons] at ih ⊢
        simp [hxc, hyc] at ih ⊢
        exact ih
      · simp only [List.filter_cons] at ih ⊢
        simp [hxc] at ih ⊢
        rw [ih]

theorem filter_sortDesc (l : List (String × ℚ)) (c : ℚ) :
    (sortDesc l).filter (fun e => decide (e.2 = c)) =
      l.filter (fun e => decide (e.2 = c)) := by
  induction l with
  | nil => rfl
  | cons x xs ih =>
    simp only [sortDesc]
    rw [filter_insertDesc]
    simp only [List.filter_cons]
    rw [ih]

theorem firstMaxD_eq_none (l : List (String × ℚ)) :
    firstMaxD l = none ↔ l = [] := by
  cases l with
  | nil => simp [firstMaxD]
  | cons x xs =>
    simp only [firstMaxD]
    cases h : firstMaxD xs with
    | none => simp
    | some m => by_cases hlt : x.2 < m.2 <;> simp [hlt]

theorem head?_sortDesc (l : List (String × ℚ)) :
    (sortDesc l).head? = firstMaxD l := by
  induction l with
  | nil => rfl
  | cons x xs ih =>
    simp only [sortDesc, firstMaxD]
    cases h : firstMaxD xs with
    | none =>
      have hxs : sortDesc xs = [] := by
        rw [h] at ih
        exact List.head?_eq_none_iff.mp ih
      rw [hxs]
      rfl
    | some m =>
      rw [h] at ih
      cases hs : sortDesc xs with
      | nil => rw [hs] at ih; simp at ih
      | cons y ys =>
        rw [hs] at ih
        have hy : y = m := by simpa using ih
        subst hy
        by_cases hle : y.2 ≤ x.2
        · simp [insertDesc, hle, not_lt.mpr hle]
        · simp [insertDesc, hle, not_le.mp hle]

theorem firstMaxD_spec (l : List (String × ℚ)) (m : String × ℚ)
    (h : firstMaxD l = some m) :
    ∃ i, ∃ hi : i < l.length, l.get ⟨i, hi⟩ = m ∧
      (∀ p ∈ l, p.2 ≤ m.2) ∧ (∀ p ∈ l.take i, p.2 < m.2) := by
  induction l generalizing m with
  | nil => simp [firstMaxD] at h
  | cons x xs ih =>
    simp only [firstMaxD] at h
    cases hx : firstMaxD xs with
    | none =>
      rw [hx] at h
      obtain rfl : x = m := by simpa using h
      have hxs : xs = [] := (firstMaxD_eq_none xs).mp hx
      subst hxs
      exact ⟨0, by simp, rfl, by simp, by simp⟩
    | some w =>
      rw [hx] at h
      by_cases hlt : x.2 < w.2
      · obtain rfl : w = m := by simpa [hlt] using h
        obtain ⟨i, hi, hget, hmax, hpre⟩ := ih _ hx
        refine ⟨i + 1, by simpa using Nat.succ_lt_succ hi, ?_, ?_, ?_⟩
        · simpa using hget
        · intro p hp
          rcases List.mem_cons.mp hp with rfl | hp
          · exact le_of_lt hlt
          · exact hmax p hp
        · intro p hp
          rw [List.take_succ_cons] at hp
          rcases List.mem_cons.mp hp with rfl | hp
          · exact hlt
          · exact hpre p hp
      · obtain rfl : x = m := by simpa [hlt] using h
        obtain ⟨i, hi, hget, hmax, hpre⟩ := ih w hx
        refine ⟨0, by simp, rfl, ?_, by simp⟩
        intro p hp
        rcases List.mem_cons.mp hp with rfl | hp
        · exact le_refl _
        · exact le_trans (hmax p hp) (not_lt.mp hlt)

theorem buildSuccess_eq (probs : List ℚ) (h : probs.length = 4) :
    ∃ top tl, sortDesc (class_names.zip probs) = top :: tl ∧
      buildSuccess probs = Except.ok ⟨top :: tl, top.1, top.2⟩ := by
  have hzl : (class_names.zip probs).length = 4 := by
    rw [List.length_zip, h]; rfl
  have hsl : (sortDesc (class_names.zip probs)).length = 4 := by
    rw [length_sortDesc, hzl]
  cases hs : sortDesc (class_names.zip probs) with
  | nil => rw [hs] at hsl; simp at hsl
  | cons top tl =>
    refine ⟨top, tl, rfl, ?_⟩
    have hcond : probs.length ≤ class_names.length := by rw [h]; decide
    unfold buildSuccess
    rw [if_pos hcond, hs]
    rfl

theorem buildSuccess_uniform :
    buildSuccess [1/4, 1/4, 1/4, 1/4] = Except.ok uniformBody := by
  have hpair : (class_names.zip [1/4, 1/4, 1/4, 1/4] : List (String × ℚ)).Pairwise
      (fun a b => b.2 ≤ a.2) := by
    simp [class_names, List.pairwise_cons]
  have hsort : sortDesc (class_names.zip [1/4, 1/4, 1/4, 1/4]) =
      class_names.zip [1/4, 1/4, 1/4, 1/4] :=
    sortDesc_of_pairwise _ hpair
  have hcond : ([1/4, 1/4, 1/4, 1/4] : List ℚ).length ≤ class_names.length := by decide
  unfold buildSuccess
  rw [if_pos hcond, hsort]
  rfl

/-! The claims. -/

/-- C1, behavior of the code at the claim's scenario: with the model
handle absent and a validated upload (content type `image/png`, three
bytes), `predict_image` does build the fixed demo payload
(`success: false`, `demo_mode: true`, `error: "Model not loaded"`, the
hardcoded prediction list) — but `predict_xray` then maps any non-success
dictionary to an `HTTPException`, so the client receives HTTP 500 with
detail "Model not loaded" instead of the demo payload: model absence does
surface as a failure status, contrary to the stated property. -/
theorem model_absent_surfaces_500 :
    predict_image failingDecode none [0, 1, 2] =
      (PredictResult.demo "Model not loaded" demo_predictions, []) ∧
    (predict_xray failingDecode none "image/png" [0, 1, 2]).1 =
      Response.httpError 500 "Model not loaded" :=
  ⟨rfl, by decide⟩

/-- C2: for a raw-probability vector of length 4 (the class-label count),
the formatter succeeds and its output has exactly 4 entries, is sorted
non-increasingly by confidence, is stable (filtering the output by any
confidence value gives the same list as filtering the unsorted
label/probability zip, so ties keep their original class-index order),
and `primary_diagnosis` / `confidence` are the label and value of the
maximum-confidence entry, first occurrence on ties. -/
theorem formatter_correct (probs : List ℚ) (h : probs.length = 4) :
    ∃ body : SuccessBody, buildSuccess probs = Except.ok body ∧
      body.predictions.length = 4 ∧
      body.predictions.Pairwise (fun a b => b.2 ≤ a.2) ∧
      (∀ c : ℚ, body.predictions.filter (fun e => decide (e.2 = c)) =
        (class_names.zip probs).filter (fun e => decide (e.2 = c))) ∧
      (∃ i, ∃ hi : i < (class_names.zip probs).length,
        ((class_names.zip probs).get ⟨i, hi⟩).1 = body.primary_diagnosis ∧
        ((class_names.zip probs).get ⟨i, hi⟩).2 = body.confidence ∧
        (∀ p ∈ class_names.zip probs, p.2 ≤ body.confidence) ∧
        (∀ p ∈ (class_names.zip probs).take i, p.2 < body.confidence)) := by
  obtain ⟨top, tl, hs, hbuild⟩ := buildSuccess_eq probs h
  refine ⟨⟨top :: tl, top.1, top.2⟩, hbuild, ?_, ?_, ?_, ?_⟩
  · rw [← hs, length_sortDesc, List.length_zip, h]; rfl
  · rw [← hs]; exact pairwise_sortDesc _
  · intro c
    show (top :: tl).filter _ = _
    rw [← hs]
    exact filter_sortDesc _ c
  · have hmax : firstMaxD (class_names.zip probs) = some top := by
      rw [← head?_sortDesc, hs]; rfl
    obtain ⟨i, hi, hget, hle, hlt⟩ := firstMaxD_spec _ _ hmax
    exact ⟨i, hi, by rw [hget], by rw [hget], hle, hlt⟩

/-- C2 witness: the length-4 vector `[1/10, 2/5, 2/5, 1/10]` satisfies the
hypothesis, and the formatter properties hold of its output. -/
theorem formatter_correct_witness :
    ([1/10, 2/5, 2/5, 1/10] : List ℚ).length = 4 ∧
    (∃ body : SuccessBody, buildSuccess [1/10, 2/5, 2/5, 1/10] = Except.ok body ∧
      body.predictions.length = 4 ∧
      body.predictions.Pairwise (fun a b => b.2 ≤ a.2) ∧
      (∀ c : ℚ, body.predictions.filter (fun e => decide (e.2 = c)) =
        (class_names.zip [1/10, 2/5, 2/5, 1/10]).filter (fun e => decide (e.2 = c))) ∧
      (∃ i, ∃ hi : i < (class_names.zip [1/10, 2/5, 2/5, 1/10]).length,
        ((class_names.zip [1/10, 2/5, 2/5, 1/10]).get ⟨i, hi⟩).1 = body.primary_diagnosis ∧
        ((class_names.zip [1/10, 2/5, 2/5, 1/10]).get ⟨i, hi⟩).2 = body.confidence ∧
        (∀ p ∈ class_names.zip [1/10, 2/5, 2/5, 1/10], p.2 ≤ body.confidence) ∧
        (∀ p ∈ (class_names.zip [1/10, 2/5, 2/5, 1/10]).take i, p.2 < body.confidence))) :=
  ⟨by decide, formatter_correct [1/10, 2/5, 2/5, 1/10] (by decide)⟩

/-- C3: an upload whose declared content type does not begin with
`image/` is rejected by `predict_xray` with HTTP 400 "File must be an
image" and an empty call trace: the file bytes are never read and no
decoding is attempted, and the outcome is the same for every byte buffer,
decoder and model handle. -/
theorem bad_content_type_rejected (dec : DecodeFn) (model : Option InferFn)
    (ct : String) (b : Bytes) (h : strStartsWith ct "image/" = false) :
    predict_xray dec model ct b =
      (Response.httpError 400 "File must be an image", []) := by
  simp [predict_xray, h]

/-- C3 witness: content type `text/plain` is concretely rejected before
any read or decode. -/
theorem bad_content_type_rejected_witness :
    strStartsWith "text/plain" "image/" = false ∧
    predict_xray failingDecode none "text/plain" [1, 2, 3] =
      (Response.httpError 400 "File must be an image", []) :=
  ⟨by decide,
   bad_content_type_rejected failingDecode none "text/plain" [1, 2, 3] (by decide)⟩

/-- C4: an upload of more than 10 MiB is rejected with HTTP 400 "File too
large (max 10MB)" right after the read, with a trace showing no decode
and no inference (`predict_image` is never reached, so the outcome is the
same for every decoder and model); an upload of at most 10 MiB is never
answered with that size rejection. -/
theorem size_limit_enforced (dec : DecodeFn) (model : Option InferFn)
    (ct : String) (b : Bytes) (hct : strStartsWith ct "image/" = true) :
    (b.length > 10 * 1024 * 1024 →
      predict_xray dec model ct b =
        (Response.httpError 400 "File too large (max 10MB)", [Event.readFile])) ∧
    (b.length ≤ 10 * 1024 * 1024 →
      (predict_xray dec model ct b).1 ≠
        Response.httpError 400 "File too large (max 10MB)") := by
  constructor
  · intro hb
    simp [predict_xray, hct, hb]
  · intro hb
    have hb2 : ¬ b.length > 10 * 1024 * 1024 := not_lt.mpr hb
    simp only [predict_xray, hct, Bool.true_eq_false, if_false, if_neg hb2]
    split
    · simp
    · simp

/-- C4 witness: a 10 MiB + 1 byte upload of content type `image/png` is
concretely rejected for size with no decode, and a 3-byte upload is not
size-rejected. -/
theorem size_limit_enforced_witness :
    strStartsWith "image/png" "image/" = true ∧
    (List.replicate (10 * 1024 * 1024 + 1) 0).length > 10 * 1024 * 1024 ∧
    predict_xray failingDecode none "image/png" (List.replicate (10 * 1024 * 1024 + 1) 0) =
      (Response.httpError 400 "File too large (max 10MB)", [Event.readFile]) ∧
    (predict_xray failingDecode none "image/png" [1, 2, 3]).1 ≠
      Response.httpError 400 "File too large (max 10MB)" := by
  have h1 : (List.replicate (10 * 1024 * 1024 + 1) (0 : Nat)).length > 10 * 1024 * 1024 := by
    rw [List.length_replicate]
    omega
  refine ⟨by decide, h1, ?_, ?_⟩
  · exact (size_limit_enforced failingDecode none "image/png" _ (by decide)).1 h1
  · exact (size_limit_enforced failingDecode none "image/png" [1, 2, 3] (by decide)).2 (by decide)

/-- C5: every byte buffer the decoder accepts yields — per the PIL
contract, whatever the original dimensions and channel layout — a
224×224 image of three 8-bit channels, and the normalized tensor built
from it is exactly the linear rescaling `v ↦ v / 255` of those channel
values, so every entry lies in `[0, 1]` (the 224×224×3 shape is the type
`Tensor` itself). -/
theorem decoded_tensor_in_unit_interval (dec : DecodeFn) (b : Bytes)
    (img : RGBImage 224 224) (h : dec b = Except.ok img)
    (i : Fin 224) (j : Fin 224) (c : Fin 3) :
    normalizeTensor img i j c = ((img i j c : Nat) : ℚ) / 255 ∧
    0 ≤ normalizeTensor img i j c ∧ normalizeTensor img i j c ≤ 1 := by
  refine ⟨rfl, ?_, ?_⟩
  · exact div_nonneg (by positivity) (by norm_num)
  · have hv : ((img i j c : Nat) : ℚ) ≤ 255 := by
      have := (img i j c).isLt
      exact_mod_cast Nat.lt_succ_iff.mp this
    exact div_le_one_of_le₀ hv (by norm_num)

/-- C5 witness: the all-zero decoder output at pixel (0,0), channel 0. -/
theorem decoded_tensor_in_unit_interval_witness :
    zeroDecode [] = Except.ok zeroImage ∧
    (normalizeTensor zeroImage 0 0 0 = ((zeroImage 0 0 0 : Nat) : ℚ) / 255 ∧
     0 ≤ normalizeTensor zeroImage 0 0 0 ∧ normalizeTensor zeroImage 0 0 0 ≤ 1) :=
  ⟨rfl, decoded_tensor_in_unit_interval zeroDecode [] zeroImage rfl 0 0 0⟩

/-- C6: with the model handle present, a decode failure — and likewise an
inference failure — is caught and surfaced as HTTP 500 whose detail is the
error message; the trace shows the decoder, and the model, invoked at
most once each (no retry), and the outcome is a structured `Response`
value, so no exception escapes the handler. -/
theorem internal_errors_become_500 (dec : DecodeFn) (infer : InferFn)
    (ct : String) (b : Bytes) (hct : strStartsWith ct "image/" = true)
    (hb : b.length ≤ 10 * 1024 * 1024) :
    (∀ e, dec b = Except.error e →
      predict_xray dec (some infer) ct b =
        (Response.httpError 500 e, [Event.readFile, Event.decode])) ∧
    (∀ img e, dec b = Except.ok img →
      infer (normalizeTensor img) = Except.error e →
      predict_xray dec (some infer) ct b =
        (Response.httpError 500 e, [Event.readFile, Event.decode, Event.infer])) := by
  have hb2 : ¬ b.length > 10 * 1024 * 1024 := not_lt.mpr hb
  constructor
  · intro e he
    simp [predict_xray, hct, hb2, predict_image, he, PredictResult.success,
      PredictResult.errorVal]
  · intro img e hi he
    simp [predict_xray, hct, hb2, predict_image, hi, he, PredictResult.success,
      PredictResult.errorVal]

/-- C6 witness: a failing decoder on a one-byte `image/png` upload with a
loaded model concretely produces HTTP 500 with the decode message. -/
theorem internal_errors_become_500_witness :
    strStartsWith "image/png" "image/" = true ∧
    ([0] : Bytes).length ≤ 10 * 1024 * 1024 ∧
    failingDecode [0] = Except.error "cannot identify image file" ∧
    predict_xray failingDecode (some failingInfer) "image/png" [0] =
      (Response.httpError 500 "cannot identify image file",
       [Event.readFile, Event.decode]) :=
  ⟨by decide, by decide, rfl,
   (internal_errors_become_500 failingDecode failingInfer "image/png" [0]
     (by decide) (by decide)).1 "cannot identify image file" rfl⟩

/-- C7: determinism of the prediction pipeline — the request path reads
the model handle and never writes it, so handling the very same upload
twice in succession leaves the model state unchanged and returns the
identical response (the entire prediction dictionary: same labels, same
confidences, same order). -/
theorem repeated_requests_identical (dec : DecodeFn) (st : Option InferFn)
    (ct : String) (b : Bytes) :
    (handle_request dec st ct b).2 = st ∧
    (handle_request dec (handle_request dec st ct b).2 ct b).1 =
      (handle_request dec st ct b).1 :=
  ⟨rfl, rfl⟩

/-- C8: when the model handle is absent the model is never invoked — on
any request at all, `predict_image` with `model = none` performs no
decode or inference call (its trace is empty: it returns the demo branch
before touching the model), and the full handler's trace contains no
inference event either. -/
theorem model_absent_never_infers (dec : DecodeFn) (ct : String) (b : Bytes) :
    (predict_image dec none b).2 = [] ∧
    Event.infer ∉ (predict_xray dec none ct b).2 := by
  refine ⟨rfl, ?_⟩
  by_cases h1 : strStartsWith ct "image/" = false
  · simp [predict_xray, h1]
  · by_cases h2 : b.length > 10 * 1024 * 1024
    · simp [predict_xray, h1, h2]
    · simp [predict_xray, h1, h2, predict_image, PredictResult.success]

/-- C9: the formatter's output confidences are exactly the input
probabilities reordered — the confidence column of the output is a
permutation of the input vector, hence multiset- and sum-preserving; and
on the uniform vector `[1/4, 1/4, 1/4, 1/4]` (all entries equal, summing
to 1, e.g. a uniform model output on the all-zero decoded image) the
output keeps the original class order (all-ties stability), its
confidences sum to exactly 1, and the primary diagnosis is reproducibly
the first class label. -/
theorem formatter_confidences_permuted (probs : List ℚ) (body : SuccessBody)
    (h : probs.length = 4) (hb : buildSuccess probs = Except.ok body) :
    (body.predictions.map Prod.snd).Perm probs ∧
    (body.predictions.map Prod.snd).sum = probs.sum ∧
    (buildSuccess [1/4, 1/4, 1/4, 1/4] = Except.ok uniformBody ∧
     uniformBody.predictions = class_names.zip [1/4, 1/4, 1/4, 1/4] ∧
     (uniformBody.predictions.map Prod.snd).sum = 1 ∧
     uniformBody.primary_diagnosis = "NORMAL" ∧ uniformBody.confidence = 1/4) := by
  obtain ⟨top, tl, hs, hbuild⟩ := buildSuccess_eq probs h
  rw [hbuild] at hb
  simp only [Except.ok.injEq] at hb
  subst hb
  have hperm : ((top :: tl).map Prod.snd).Perm probs := by
    rw [← hs]
    have h1 := (sortDesc_perm (class_names.zip probs)).map Prod.snd
    have h2 : (class_names.zip probs).map Prod.snd = probs :=
      List.map_snd_zip class_names probs (by rw [h]; decide)
    rwa [h2] at h1
  refine ⟨hperm, hperm.sum_eq, buildSuccess_uniform, rfl, ?_, rfl, rfl⟩
  norm_num [uniformBody]

/-- C9 witness: the uniform vector itself satisfies both hypotheses, and
its output confidences are a sum-preserving permutation. -/
theorem formatter_confidences_permuted_witness :
    ([1/4, 1/4, 1/4, 1/4] : List ℚ).length = 4 ∧
    buildSuccess [1/4, 1/4, 1/4, 1/4] = Except.ok uniformBody ∧
    ((uniformBody.predictions.map Prod.snd).Perm [1/4, 1/4, 1/4, 1/4] ∧
     (uniformBody.predictions.map Prod.snd).sum = ([1/4, 1/4, 1/4, 1/4] : List ℚ).sum ∧
     (buildSuccess [1/4, 1/4, 1/4, 1/4] = Except.ok uniformBody ∧
      uniformBody.predictions = class_names.zip [1/4, 1/4, 1/4, 1/4] ∧
      (uniformBody.predictions.map Prod.snd).sum = 1 ∧
      uniformBody.primary_diagnosis = "NORMAL" ∧ uniformBody.confidence = 1/4)) :=
  ⟨by decide, buildSuccess_uniform,
   formatter_confidences_permuted [1/4, 1/4, 1/4, 1/4] uniformBody (by decide)
     buildSuccess_uniform⟩

/-- C10: `get_recent_scans` returns `max 0 (min limit 10)` scan entries —
never more than 10, however large `limit` is — and a `count` field equal
to `min limit 10`; hence `count` equals the list length for every
`limit ≥ 0` and differs from it for every negative `limit`. -/
theorem recent_scans_count (limit : Int) :
    ((get_recent_scans limit).1.length : Int) = max 0 (min limit 10) ∧
    (get_recent_scans limit).1.length ≤ 10 ∧
    (get_recent_scans limit).2 = min limit 10 ∧
    (0 ≤ limit → ((get_recent_scans limit).1.length : Int) = (get_recent_scans limit).2) ∧
    (limit < 0 → ((get_recent_scans limit).1.length : Int) ≠ (get_recent_scans limit).2) := by
  have hlen : (get_recent_scans limit).1.length = (min limit 10).toNat := by
    simp [get_recent_scans]
  have hcount : (get_recent_scans limit).2 = min limit 10 := rfl
  refine ⟨?_, ?_, hcount, ?_, ?_⟩
  · rw [hlen]; omega
  · rw [hlen]; omega
  · intro h0; rw [hlen, hcount]; omega
  · intro hneg; rw [hlen, hcount]; omega

/-- C10 witness: at `limit = 5` the count matches the length, at
`limit = -3` it does not. -/
theorem recent_scans_count_witness :
    (0 ≤ (5 : Int) ∧
      ((get_recent_scans 5).1.length : Int) = (get_recent_scans 5).2) ∧
    ((-3 : Int) < 0 ∧
      ((get_recent_scans (-3)).1.length : Int) ≠ (get_recent_scans (-3)).2) :=
  ⟨⟨by decide, (recent_scans_count 5).2.2.2.1 (by decide)⟩,
   ⟨by decide, (recent_scans_count (-3)).2.2.2.2 (by decide)⟩⟩

end ThoraxSense
